import Mathlib

/-!
# MOT_Check — verification of the update-detection and notification pipeline

A shallow embedding of the MOT History Tracker's Netlify functions
(`netlify/functions/scheduled-mot-check.js`, `getPendingNotifications.js`,
`enableNotification.js`, `checkMotUpdates.js`, `sendPushNotification.js`)
and proofs about them.

Modelling conventions:
* ISO-8601 timestamp strings are represented by their epoch values
  (`Int`), since every comparison in the source goes through
  `new Date(s).getTime()` / `Date` comparison, which is order-preserving
  on well-formed ISO strings.  A missing / `null` / empty ("falsy") date
  is `Option.none`.
* A MongoDB document field that may be absent is an `Option`.  Where the
  distinction between "field absent" and "field present with value
  `null`" matters (the push-subscription query of
  `sendPushNotification.js`), the field is an `Option (Option _)`:
  outer `none` = absent, `some none` = explicit `null`.
* Each Netlify handler is modelled as a pure function from the relevant
  store state (the matching MongoDB document(s)) and request data to a
  response plus the new store state.  A single MongoDB operation
  (`updateOne`, `findOneAndUpdate`, `insertOne`) is one atomic step.
-/

namespace MotCheck

/-- One MOT test as returned by the upstream history API
(`vehicleData.motTests[i]`).  `completedDate` is the parsed epoch value of
the (non-empty) `completedDate` string. -/
structure MotTest where
  completedDate : Int
  testResult : String
  expiryDate : Option Int
  defects : Option (List String)
  deriving Repr, DecidableEq

/-- Upstream vehicle payload (`response.data` of the history API). -/
structure VehicleData where
  registration : Option String
  make : Option String
  model : Option String
  primaryColour : Option String
  motTests : Option (List MotTest)
  deriving Repr, DecidableEq

/-- The `vehicle` sub-object of `updateDetails` built by
`scheduled-mot-check.js` (make/model/colour defaulted to `'Unknown'`). -/
structure VehicleDescriptor where
  make : String
  model : String
  registration : Option String
  color : String
  deriving Repr, DecidableEq

/-- The `vehicleInfo` object stored by `enableNotification.js`
(make/model/color only). -/
structure BasicVehicleInfo where
  make : String
  model : String
  color : String
  deriving Repr, DecidableEq

/-- The `updateDetails` value object written by the scheduler's
`hasUpdate` branch (`scheduled-mot-check.js`). -/
structure UpdateDetails where
  previousDate : Option Int
  newDate : Int
  testResult : String
  expiryDate : Option Int
  defects : List String
  vehicle : VehicleDescriptor
  deriving Repr, DecidableEq

/-- One document of the `notifications` collection (a tracked vehicle).
`hasUpdate` is a `Bool`: a document created by `enableNotification.js`
has no `hasUpdate` field, and every read of it in the source is under JS
truthiness, where an absent field and `false` coincide. -/
structure VehicleRecord where
  registration : String
  lastCheckedDate : Option Int
  lastMotTestDate : Option Int
  vehicleInfo : Option BasicVehicleInfo
  motTests : List MotTest
  enabled : Bool
  createdAt : Option Int
  hasUpdate : Bool
  updateDetectedAt : Option Int
  updateDetails : Option UpdateDetails
  updateAcknowledgedAt : Option Int
  acknowledgedBy : Option String
  lastCheckError : Option String
  deriving Repr, DecidableEq

/-! ## Update detection (`scheduled-mot-check.js` lines 180–199)

The scheduler computes a boolean `hasUpdate`, but its `if` structure has
three distinct live branches, each with its own log line; `DetectOutcome`
names them.  `FirstObservation` is the `'First MOT test detected'`
branch, `NewTest` the `'New MOT test detected'` branch and `NoChange`
both the `latestMotTestDate` falsy case and the
`'No new MOT tests'` branch. -/

inductive DetectOutcome where
  | NoChange
  | FirstObservation
  | NewTest
  deriving Repr, DecidableEq

/-- Mirrors `let hasUpdate = false; if (latestMotTestDate) {
if (!lastMotTestDate) { hasUpdate = true } else if (latestTestTime >
lastTestTime) { hasUpdate = true } }`, with each branch named. -/
def codeDetect (latestMotTestDate lastMotTestDate : Option Int) : DetectOutcome :=
  match latestMotTestDate with
  | none => .NoChange
  | some latestTestTime =>
    match lastMotTestDate with
    | none => .FirstObservation
    | some lastTestTime =>
      if latestTestTime > lastTestTime then .NewTest else .NoChange

/-- The boolean `hasUpdate` the scheduler actually stores: true exactly on
the two update branches of `codeDetect`. -/
def hasUpdateCalc (latestMotTestDate lastMotTestDate : Option Int) : Bool :=
  match codeDetect latestMotTestDate lastMotTestDate with
  | .NoChange => false
  | .FirstObservation => true
  | .NewTest => true

/-- Model of `getLatestMotTest` (`scheduled-mot-check.js` lines 89–102): `null`
when `motTests` is absent or empty; otherwise the head of the list sorted
by `completedDate` descending.  JS `Array.prototype.sort` is stable, so
the head is the first test attaining the maximal `completedDate`; the
fold below keeps the earlier element on ties, which is exactly that
test. -/
def getLatestMotTest (vehicleData : VehicleData) : Option MotTest :=
  match vehicleData.motTests with
  | none => none
  | some [] => none
  | some (t :: ts) =>
    some (ts.foldl (fun best cur =>
      if cur.completedDate > best.completedDate then cur else best) t)

/-! ## Batch scheduler (`scheduled-mot-check.js` handler, lines 107–291)

One run is modelled as a pure function of the list of enabled records
paired with each record's upstream fetch outcome (the only effectful,
fallible step of an iteration).  MongoDB writes always succeed in the
model; `new Date().toISOString()` is the single instant `now`. -/

/-- Run-level summary (`results` object, lines 131–136). -/
structure RunResults where
  total : Nat
  checked : Nat
  updated : Nat
  errors : Nat
  deriving Repr, DecidableEq

/-- Outcome of `getMotHistory(reg.registration)` for one item: the
upstream payload, or a thrown error (timeout, 404, auth failure, …)
carrying `error.message`. -/
inductive FetchResult where
  | failure (message : String)
  | success (vehicleData : VehicleData)
  deriving Repr, DecidableEq

/-- Whether the fetch threw. -/
def FetchResult.isFailure : FetchResult → Bool
  | .failure _ => true
  | .success _ => false

/-- The `updateDetails` object written in the `hasUpdate` branch
(lines 214–226). -/
def mkUpdateDetails (reg : VehicleRecord) (vehicleData : VehicleData)
    (latestMotTest : MotTest) : UpdateDetails :=
  { previousDate := reg.lastMotTestDate
    newDate := latestMotTest.completedDate
    testResult := latestMotTest.testResult
    expiryDate := latestMotTest.expiryDate
    defects := latestMotTest.defects.getD []
    vehicle :=
      { make := vehicleData.make.getD "Unknown"
        model := vehicleData.model.getD "Unknown"
        registration := vehicleData.registration
        color := vehicleData.primaryColour.getD "Unknown" } }

/-- One iteration of the inner `for (const reg of batch)` loop
(lines 146–259): `results.checked++` first; on a thrown fetch error,
`results.errors++` and the record still gets `lastCheckedDate` plus
`lastCheckError`; with no tests, only `lastCheckedDate`; with an update,
the single `updateOne` sets baseline, `hasUpdate`, `updateDetectedAt`
and `updateDetails` together; otherwise only `lastCheckedDate`. -/
def processReg (now : Int) (results : RunResults)
    (item : VehicleRecord × FetchResult) : RunResults × VehicleRecord :=
  let results := { results with checked := results.checked + 1 }
  match item.2 with
  | .failure msg =>
    ({ results with errors := results.errors + 1 },
      { item.1 with lastCheckedDate := some now, lastCheckError := some msg })
  | .success vehicleData =>
    match getLatestMotTest vehicleData with
    | none =>
      (results, { item.1 with lastCheckedDate := some now })
    | some latestMotTest =>
      let latestMotTestDate := latestMotTest.completedDate
      if hasUpdateCalc (some latestMotTestDate) item.1.lastMotTestDate then
        ({ results with updated := results.updated + 1 },
          { item.1 with
              lastMotTestDate := some latestMotTestDate
              lastCheckedDate := some now
              hasUpdate := true
              updateDetectedAt := some now
              updateDetails := some (mkUpdateDetails item.1 vehicleData latestMotTest) })
      else
        (results, { item.1 with lastCheckedDate := some now })

/-- The record written for one item (independent of the counters). -/
def regResult (now : Int) (item : VehicleRecord × FetchResult) : VehicleRecord :=
  (processReg now ⟨0, 0, 0, 0⟩ item).2

/-- Batching by `registrations.slice(i, i + batchSize)` for `i = 0, 3, 6, …`
(lines 139–143, `batchSize = 3`). -/
def toBatches {α : Type} : List α → List (List α)
  | [] => []
  | x :: xs => ((x :: xs).take 3) :: toBatches ((x :: xs).drop 3)
termination_by l => l.length
decreasing_by simp [List.length_drop]; omega

/-- Sequential processing of the items of one batch (`for (const reg of
batch)`), threading the summary counters and collecting each written
record in order. -/
def runItems (now : Int) (results : RunResults) :
    List (VehicleRecord × FetchResult) → RunResults × List VehicleRecord
  | [] => (results, [])
  | item :: rest =>
    let step := processReg now results item
    let next := runItems now step.1 rest
    (next.1, step.2 :: next.2)

/-- The outer batch loop (`for (let i = 0; …; i += batchSize)`); the
inter-batch 3 s delay has no effect on state. -/
def runBatches (now : Int) (results : RunResults) :
    List (List (VehicleRecord × FetchResult)) → RunResults × List VehicleRecord
  | [] => (results, [])
  | b :: bs =>
    let stepB := runItems now results b
    let next := runBatches now stepB.1 bs
    (next.1, stepB.2 ++ next.2)

/-- One whole scheduler run over the enabled records:
`results.total := registrations.length`, then batches of 3 in order. -/
def runScheduledCheck (now : Int)
    (items : List (VehicleRecord × FetchResult)) : RunResults × List VehicleRecord :=
  runBatches now { total := items.length, checked := 0, updated := 0, errors := 0 }
    (toBatches items)

/-! ## Direct check endpoint (`checkMotUpdates.js`)

`getLatestMotTestDate` there (lines 84–93) is the same
sort-descending-take-head selection, returning just the date. -/

/-- Model of `getLatestMotTestDate(vehicleData)` of `checkMotUpdates.js`. -/
def getLatestMotTestDate (vehicleData : VehicleData) : Option Int :=
  (getLatestMotTest vehicleData).map MotTest.completedDate

/-- Body of the 200 response of `checkMotUpdates.js` (lines 174–184). -/
structure CheckResponse where
  statusCode : Nat
  registration : String
  hasUpdate : Bool
  lastMotTestDate : Option Int
  latestMotTestDate : Option Int
  deriving Repr, DecidableEq

/-- Core of the `checkMotUpdates.js` handler once the record was found and
the upstream fetch succeeded (lines 149–184): line 158 is exactly
`hasUpdateCalc`, and lines 163–171 write `lastCheckedDate` and —
unconditionally — `lastMotTestDate := latestMotTestDate`. -/
def checkMotUpdates (now : Int) (record : VehicleRecord)
    (vehicleData : VehicleData) : CheckResponse × VehicleRecord :=
  let lastMotTestDate := record.lastMotTestDate
  let latestMotTestDate := getLatestMotTestDate vehicleData
  let hasUpdate := hasUpdateCalc latestMotTestDate lastMotTestDate
  (⟨200, record.registration, hasUpdate, lastMotTestDate, latestMotTestDate⟩,
    { record with
        lastCheckedDate := some now
        lastMotTestDate := latestMotTestDate })

/-! ## Pending-update claim protocol (`getPendingNotifications.js`)

The deployed handler claims with one atomic
`findOneAndUpdate({registration, hasUpdate: true}, {$set: {hasUpdate:
false, …}}, {returnDocument: 'before'})`.  That store-level operation is
one indivisible step, so any interleaving of N concurrent poll requests
executes their claim operations in some sequential order; the preceding
`findOne` is read-only and cannot affect who claims.  `runClaims` below
is that sequential order. -/

/-- The atomic compare-and-clear (lines 474–489 of the handler): returns
the pre-image document when the precondition `hasUpdate: true` matched
(`returnDocument: 'before'`), `none` otherwise. -/
def claimPendingUpdate (now : Int) (clientId : String)
    (record : VehicleRecord) : Option VehicleRecord × VehicleRecord :=
  if record.hasUpdate then
    (some record,
      { record with
          hasUpdate := false
          updateAcknowledgedAt := some now
          acknowledgedBy := some clientId })
  else
    (none, record)

/-- N claim attempts against one record, in their linearization order;
collects each attempt's `findOneAndUpdate` result. -/
def runClaims : List (Int × String) → VehicleRecord →
    List (Option VehicleRecord) × VehicleRecord
  | [], record => ([], record)
  | c :: cs, record =>
    let step := claimPendingUpdate c.1 c.2 record
    let next := runClaims cs step.2
    (step.1 :: next.1, next.2)

/-- JSON body of a `getPendingNotifications` response.  A field is `none`
when the branch's `JSON.stringify` body does not contain that key;
`lastCheckedDate`/`lastMotTestDate` are doubly optional because the body
may contain the key with a `null` value. -/
structure PollResponse where
  statusCode : Nat
  error : Bool
  hasUpdate : Option Bool
  registration : Option String
  isMonitored : Option Bool
  updateDetectedAt : Option Int
  details : Option UpdateDetails
  lastCheckedDate : Option (Option Int)
  lastMotTestDate : Option (Option Int)
  deriving Repr, DecidableEq

/-- The `getPendingNotifications` handler for one poll (no concurrent
claimer), from the store lookup on: 404 when not subscribed; otherwise
the atomic claim decides the branch (the claimed pre-image always has
`hasUpdate` true, so line 492's `updatedRecord && updatedRecord.hasUpdate`
is its `isSome`).  The claimed 200 body (lines 498–508) has
`updateDetectedAt`, `details` (`updateDetails || {}`, with the empty
fallback collapsed to `none`) and `lastCheckedDate` but no
`lastMotTestDate`; the no-update 200 body (lines 517–527) has
`lastCheckedDate` and `lastMotTestDate` (each `|| null`). -/
def getPendingNotifications (now : Int) (clientId : Option String)
    (store : Option VehicleRecord) : PollResponse × Option VehicleRecord :=
  match store with
  | none =>
    ({ statusCode := 404, error := true, hasUpdate := none, registration := none,
       isMonitored := none, updateDetectedAt := none, details := none,
       lastCheckedDate := none, lastMotTestDate := none }, none)
  | some record =>
    let step := claimPendingUpdate now (clientId.getD "unknown") record
    match step.1 with
    | some updatedRecord =>
      ({ statusCode := 200, error := false, hasUpdate := some true,
         registration := some record.registration, isMonitored := none,
         updateDetectedAt := updatedRecord.updateDetectedAt,
         details := updatedRecord.updateDetails,
         lastCheckedDate := some updatedRecord.lastCheckedDate,
         lastMotTestDate := none }, some step.2)
    | none =>
      ({ statusCode := 200, error := false, hasUpdate := some false,
         registration := some record.registration, isMonitored := some true,
         updateDetectedAt := none, details := none,
         lastCheckedDate := some record.lastCheckedDate,
         lastMotTestDate := some record.lastMotTestDate }, some step.2)

/-! ## Subscribe (`enableNotification.js`) -/

/-- Body of an `enableNotification` success response. -/
structure SubscribeResponse where
  statusCode : Nat
  success : Bool
  message : String
  deriving Repr, DecidableEq

/-- Core of the `enableNotification.js` handler after validation
(lines 204–280): if a record for the formatted registration already
exists, return success immediately — before the baseline fetch, with no
write.  Otherwise fetch the baseline best-effort (a failure leaves the
baseline `null`, `vehicleInfo` the empty object — collapsed to `none` —
and `motTests` empty) and insert one new document. -/
def enableNotification (now : Int) (formattedReg : String)
    (fetch : FetchResult) (store : Option VehicleRecord) :
    SubscribeResponse × Option VehicleRecord :=
  match store with
  | some _ =>
    ({ statusCode := 200, success := true,
       message := "Notifications for " ++ formattedReg ++ " are already enabled" },
      store)
  | none =>
    let fetched :
        Option Int × Option BasicVehicleInfo × List MotTest :=
      match fetch with
      | .failure _ => (none, none, [])
      | .success vehicleData =>
        ((getLatestMotTest vehicleData).map MotTest.completedDate,
          some
            { make := vehicleData.make.getD "Unknown"
              model := vehicleData.model.getD "Unknown"
              color := vehicleData.primaryColour.getD "Unknown" },
          vehicleData.motTests.getD [])
    let record : VehicleRecord :=
      { registration := formattedReg
        lastCheckedDate := some now
        lastMotTestDate := fetched.1
        vehicleInfo := fetched.2.1
        motTests := fetched.2.2
        enabled := true
        createdAt := some now
        hasUpdate := false
        updateDetectedAt := none
        updateDetails := none
        updateAcknowledgedAt := none
        acknowledgedBy := none
        lastCheckError := none }
    ({ statusCode := 200, success := true,
       message := "Notifications enabled for " ++ formattedReg },
      some record)

/-! ## Notification dispatcher (`sendPushNotification.js`)

`push_subscriptions` documents are modelled with their `_id` as `id :
Nat`; `subscription.endpoint` / `subscription.keys.p256dh` /
`subscription.keys.auth` are doubly optional (absent / `null` / value)
because the selection query distinguishes them.  The outcome of one
`webpush.sendNotification` call is a function of the target document's
`_id`. -/

/-- One document of the `push_subscriptions` collection. -/
structure PushSubscription where
  id : Nat
  deviceId : String
  registration : String
  active : Option Bool
  endpoint : Option (Option String)
  p256dh : Option (Option String)
  auth : Option (Option String)
  lastNotifiedAt : Option Int
  deactivatedAt : Option Int
  deriving Repr, DecidableEq

/-- One field condition `{ $exists: true, $ne: null, $ne: '' }`
(lines 39–41).  In a JS object literal a duplicated key keeps only its
last binding, so the condition MongoDB receives is
`{ $exists: true, $ne: '' }`: the field must be present and differ from
the empty string — a field explicitly set to `null` satisfies it. -/
def fieldFilter (f : Option (Option String)) : Bool :=
  match f with
  | none => false
  | some v => v ≠ some ""

/-- The subscription query (lines 35–43): matching registration, `active`
true or absent, and the three field conditions. -/
def subscriptionSelected (registration : String) (s : PushSubscription) : Bool :=
  s.registration = registration &&
  (s.active = some true || s.active = none) &&
  fieldFilter s.endpoint && fieldFilter s.p256dh && fieldFilter s.auth

/-- Transport outcome of one `webpush.sendNotification` call: delivered,
or a thrown error optionally carrying an HTTP `statusCode`. -/
inductive PushOutcome where
  | delivered
  | failed (statusCode : Option Nat)
  deriving Repr, DecidableEq

/-- The `sent` / `failed` counters of `sendPushNotificationToDevices`. -/
structure DispatchResult where
  sent : Nat
  failed : Nat
  deriving Repr, DecidableEq

/-- Model of `updateOne(filter, …)`: updates the single first matching document
(each update in the source filters on the unique `_id`). -/
def updateFirst {α : Type} (p : α → Bool) (f : α → α) : List α → List α
  | [] => []
  | x :: xs => if p x then f x :: xs else x :: updateFirst p f xs

/-- Per-document effect of one delivery attempt: success updates
`lastNotifiedAt` (line 82); a 410/404 failure deactivates (line 100); any
other failure writes nothing. -/
def applyOutcome (now : Int) (o : PushOutcome)
    (s : PushSubscription) : PushSubscription :=
  match o with
  | .delivered => { s with lastNotifiedAt := some now }
  | .failed code =>
    if code = some 410 || code = some 404 then
      { s with active := some false, deactivatedAt := some now }
    else s

/-- The `for (const sub of subscriptions)` loop (lines 59–104): each
iteration is wrapped in its own try/catch, so an attempt's failure only
increments `failed` (deactivating on 410/404) and the loop continues. -/
def sendLoop (now : Int) (deliver : Nat → PushOutcome) :
    List PushSubscription → DispatchResult × List PushSubscription →
    DispatchResult × List PushSubscription
  | [], acc => acc
  | sub :: rest, (res, store) =>
    match deliver sub.id with
    | .delivered =>
      sendLoop now deliver rest
        ({ res with sent := res.sent + 1 },
          updateFirst (fun s => s.id == sub.id) (applyOutcome now .delivered) store)
    | .failed code =>
      if code = some 410 || code = some 404 then
        sendLoop now deliver rest
          ({ res with failed := res.failed + 1 },
            updateFirst (fun s => s.id == sub.id) (applyOutcome now (.failed code)) store)
      else
        sendLoop now deliver rest ({ res with failed := res.failed + 1 }, store)

/-- Model of `sendPushNotificationToDevices(registration, notificationData)`
(lines 29–113): load the matching active, well-formed subscriptions;
return `{sent: 0, failed: 0}` when there are none; otherwise attempt
every one. -/
def sendPushNotificationToDevices (now : Int) (deliver : Nat → PushOutcome)
    (registration : String) (store : List PushSubscription) :
    DispatchResult × List PushSubscription :=
  let subscriptions := store.filter (subscriptionSelected registration)
  if subscriptions.length = 0 then (⟨0, 0⟩, store)
  else sendLoop now deliver subscriptions (⟨0, 0⟩, store)

/-! ## Concrete sample data (used by witnesses and counterexamples) -/

/-- A subscribed vehicle with baseline test date 100 and no pending
update. -/
def sampleRecord : VehicleRecord :=
  { registration := "AB12CDE"
    lastCheckedDate := some 1000
    lastMotTestDate := some 100
    vehicleInfo := none
    motTests := []
    enabled := true
    createdAt := some 0
    hasUpdate := false
    updateDetectedAt := none
    updateDetails := none
    updateAcknowledgedAt := none
    acknowledgedBy := none
    lastCheckError := none }

/-- Details of a detected update from 100 to 200. -/
def sampleDetails : UpdateDetails :=
  { previousDate := some 100
    newDate := 200
    testResult := "PASSED"
    expiryDate := none
    defects := []
    vehicle := ⟨"Ford", "Focus", some "AB12CDE", "Blue"⟩ }

/-- Variant of `sampleRecord` with a pending (unclaimed) update. -/
def pendingRecord : VehicleRecord :=
  { sampleRecord with
      hasUpdate := true
      updateDetectedAt := some 1500
      updateDetails := some sampleDetails }

/-- Upstream payload whose latest test (date 200) supersedes the sample
baseline 100. -/
def freshVehicleData : VehicleData :=
  { registration := some "AB12CDE"
    make := some "Ford"
    model := some "Focus"
    primaryColour := some "Blue"
    motTests := some [⟨200, "PASSED", none, none⟩] }

/-- Upstream payload whose only test (date 50) is older than the sample
baseline 100. -/
def staleVehicleData : VehicleData :=
  { registration := some "AB12CDE"
    make := some "Ford"
    model := some "Focus"
    primaryColour := some "Blue"
    motTests := some [⟨50, "PASSED", none, none⟩] }

/-- Seven enabled vehicles for one scheduler run, two of which fail. -/
def sevenItems : List (VehicleRecord × FetchResult) :=
  [(sampleRecord, .success freshVehicleData),
    (sampleRecord, .failure "timeout of 10000ms exceeded"),
    (sampleRecord, .success staleVehicleData),
    (sampleRecord, .success freshVehicleData),
    (sampleRecord, .failure "Request failed with status code 404"),
    (sampleRecord, .success freshVehicleData),
    (sampleRecord, .success staleVehicleData)]

/-- A push subscription whose `subscription.endpoint` is explicitly
`null` (present, not a string). -/
def nullEndpointSub : PushSubscription :=
  { id := 1
    deviceId := "device-1"
    registration := "AB12CDE"
    active := none
    endpoint := some none
    p256dh := some (some "p256dh-key")
    auth := some (some "auth-key")
    lastNotifiedAt := none
    deactivatedAt := none }

/-- A well-formed active push subscription. -/
def goodSub (i : Nat) : PushSubscription :=
  { id := i
    deviceId := "device-" ++ toString i
    registration := "AB12CDE"
    active := some true
    endpoint := some (some "https://push.example/ep")
    p256dh := some (some "p256dh-key")
    auth := some (some "auth-key")
    lastNotifiedAt := none
    deactivatedAt := none }

/-- Three subscribed devices. -/
def sampleSubStore : List PushSubscription := [goodSub 1, goodSub 2, goodSub 3]

/-- A transport behaviour: device 1 delivers, device 2's endpoint is gone
(410), device 3 fails transiently (500). -/
def sampleDeliver : Nat → PushOutcome := fun i =>
  if i = 1 then .delivered
  else if i = 2 then .failed (some 410)
  else .failed (some 500)

end MotCheck

namespace MotCheck

/-! ### Supporting lemmas for the scheduler -/

theorem processReg_record (now : Int) (a b : RunResults)
    (item : VehicleRecord × FetchResult) :
    (processReg now a item).2 = (processReg now b item).2 := by
  obtain ⟨r, f⟩ := item
  cases f with
  | failure msg => rfl
  | success vd =>
    simp only [processReg]
    cases getLatestMotTest vd with
    | none => rfl
    | some t =>
      by_cases h : hasUpdateCalc (some t.completedDate) r.lastMotTestDate <;> simp [h]

theorem processReg_counts (now : Int) (acc : RunResults)
    (item : VehicleRecord × FetchResult) :
    (processReg now acc item).1.total = acc.total ∧
    (processReg now acc item).1.checked = acc.checked + 1 ∧
    (processReg now acc item).1.errors
      = acc.errors + (if item.2.isFailure then 1 else 0) := by
  obtain ⟨r, f⟩ := item
  cases f with
  | failure msg => simp [processReg, FetchResult.isFailure]
  | success vd =>
    simp only [processReg, FetchResult.isFailure]
    cases getLatestMotTest vd with
    | none => simp
    | some t =>
      by_cases h : hasUpdateCalc (some t.completedDate) r.lastMotTestDate
      · simp [h]
      · simp [h]

theorem runItems_counts (now : Int) (items : List (VehicleRecord × FetchResult))
    (acc : RunResults) :
    (runItems now acc items).1.total = acc.total ∧
    (runItems now acc items).1.checked = acc.checked + items.length ∧
    (runItems now acc items).1.errors
      = acc.errors + items.countP (fun it => it.2.isFailure) := by
  induction items generalizing acc with
  | nil => simp [runItems]
  | cons item rest ih =>
    obtain ⟨h1, h2, h3⟩ := processReg_counts now acc item
    obtain ⟨ih1, ih2, ih3⟩ := ih (processReg now acc item).1
    refine ⟨?_, ?_, ?_⟩
    · simpa [runItems, h1] using ih1
    · rw [runItems] at *
      simp only [ih2, h2, List.length_cons]
      omega
    · rw [runItems] at *
      simp only [ih3, h3, List.countP_cons]
      by_cases hf : item.2.isFailure <;> simp [hf] <;> omega

theorem runItems_records (now : Int) (items : List (VehicleRecord × FetchResult))
    (acc : RunResults) :
    (runItems now acc items).2 = items.map (regResult now) := by
  induction items generalizing acc with
  | nil => rfl
  | cons item rest ih =>
    simp only [runItems, List.map_cons, regResult]
    rw [processReg_record now acc ⟨0, 0, 0, 0⟩ item, ih]

theorem runItems_append (now : Int) (l₁ l₂ : List (VehicleRecord × FetchResult))
    (acc : RunResults) :
    runItems now acc (l₁ ++ l₂)
      = ((runItems now (runItems now acc l₁).1 l₂).1,
          (runItems now acc l₁).2 ++ (runItems now (runItems now acc l₁).1 l₂).2) := by
  induction l₁ generalizing acc with
  | nil => simp [runItems]
  | cons item rest ih => simp [runItems, ih]

theorem runBatches_eq_runItems (now : Int)
    (bs : List (List (VehicleRecord × FetchResult))) (acc : RunResults) :
    runBatches now acc bs = runItems now acc bs.flatten := by
  induction bs generalizing acc with
  | nil => simp [runBatches, runItems]
  | cons b rest ih =>
    simp only [runBatches, ih, List.flatten_cons, runItems_append]

theorem toBatches_flatten {α : Type} (l : List α) : (toBatches l).flatten = l := by
  induction l using toBatches.induct with
  | case1 => simp [toBatches]
  | case2 x xs ih =>
    rw [toBatches]
    simp only [List.flatten_cons, ih, List.take_append_drop]

theorem toBatches_length {α : Type} (l : List α) :
    (toBatches l).length = (l.length + 2) / 3 := by
  induction l using toBatches.induct with
  | case1 => simp [toBatches]
  | case2 x xs ih =>
    rw [toBatches]
    simp only [List.length_cons, ih, List.length_drop]
    omega

theorem toBatches_size {α : Type} (l : List α) :
    ∀ b ∈ toBatches l, b.length ≤ 3 := by
  induction l using toBatches.induct with
  | case1 => intro b hb; simp [toBatches] at hb
  | case2 x xs ih =>
    intro b hb
    rw [toBatches] at hb
    rcases List.mem_cons.mp hb with h | h
    · subst h
      simp
    · exact ih b h

/-- C2: the update-detection matrix.  `latest = null ⇒ NoChange`;
`baseline = null` with a latest test `⇒ FirstObservation`; both present
`⇒ NewTest` iff strictly newer, else `NoChange` (equality included). -/
theorem detect_matrix (latest stored : Option Int) :
    (latest = none → codeDetect latest stored = .NoChange) ∧
    (latest ≠ none → stored = none → codeDetect latest stored = .FirstObservation) ∧
    (∀ l s, latest = some l → stored = some s →
      ((codeDetect latest stored = .NewTest ↔ s < l) ∧
        (l ≤ s → codeDetect latest stored = .NoChange))) := by
  refine ⟨?_, ?_, ?_⟩
  · rintro rfl; rfl
  · intro hne hs
    cases latest with
    | none => exact absurd rfl hne
    | some l => subst hs; rfl
  · rintro l s rfl rfl
    constructor
    · unfold codeDetect
      by_cases h : l > s
      · simp [h]
      · simp [h]
    · intro hle
      unfold codeDetect
      have : ¬ (l > s) := by omega
      simp [this]

/-- Witness for `detect_matrix` at `(some 5, some 3)` / `(some 3, some 3)`. -/
theorem detect_matrix_witness :
    codeDetect (some 5) (some 3) = .NewTest ∧
    codeDetect (some 3) (some 3) = .NoChange := by
  constructor
  · exact ((detect_matrix (some 5) (some 3)).2.2 5 3 rfl rfl).1.mpr (by decide)
  · exact ((detect_matrix (some 3) (some 3)).2.2 3 3 rfl rfl).2 (by decide)

/-- C5: a run over n enabled vehicles makes ⌈n/3⌉ batches of at most 3
whose in-order concatenation is the whole list, reports `total = n` and
`checked = n`, counts exactly the failing items in `errors`, processes
every item (the output records are the in-order per-item results), and a
failing item still gets `lastCheckedDate` with the error recorded. -/
theorem scheduler_run_summary (now : Int)
    (items : List (VehicleRecord × FetchResult)) (hne : items ≠ []) :
    (toBatches items).length = (items.length + 2) / 3 ∧
    (∀ b ∈ toBatches items, b.length ≤ 3) ∧
    (toBatches items).flatten = items ∧
    (runScheduledCheck now items).1.total = items.length ∧
    (runScheduledCheck now items).1.checked = items.length ∧
    (runScheduledCheck now items).1.errors
      = items.countP (fun it => it.2.isFailure) ∧
    (runScheduledCheck now items).2 = items.map (regResult now) ∧
    ∀ r msg, (r, FetchResult.failure msg) ∈ items →
      (regResult now (r, .failure msg)).lastCheckedDate = some now ∧
      (regResult now (r, .failure msg)).lastCheckError = some msg := by
  have hrun : runScheduledCheck now items
      = runItems now { total := items.length, checked := 0, updated := 0, errors := 0 }
          items := by
    rw [runScheduledCheck, runBatches_eq_runItems, toBatches_flatten]
  obtain ⟨h1, h2, h3⟩ :=
    runItems_counts now items { total := items.length, checked := 0, updated := 0, errors := 0 }
  refine ⟨toBatches_length items, toBatches_size items, toBatches_flatten items,
    ?_, ?_, ?_, ?_, ?_⟩
  · rw [hrun]; exact h1
  · rw [hrun, h2]; simp
  · rw [hrun, h3]; simp
  · rw [hrun]; exact runItems_records now items _
  · intro r msg _
    exact ⟨rfl, rfl⟩

/-- Witness for `scheduler_run_summary`: 7 vehicles, 2 failing fetches. -/
theorem scheduler_run_summary_witness :
    sevenItems ≠ [] ∧
    (toBatches sevenItems).length = 3 ∧
    (toBatches sevenItems).map List.length = [3, 3, 1] ∧
    (runScheduledCheck 2000 sevenItems).1.total = 7 ∧
    (runScheduledCheck 2000 sevenItems).1.checked = 7 ∧
    (runScheduledCheck 2000 sevenItems).1.errors = 2 := by
  obtain ⟨b1, _, _, b4, b5, b6, _, _⟩ :=
    scheduler_run_summary 2000 sevenItems (by simp [sevenItems])
  refine ⟨by simp [sevenItems], ?_, by simp [sevenItems, toBatches], ?_, ?_, ?_⟩
  · rw [b1]; rfl
  · rw [b4]; rfl
  · rw [b5]; rfl
  · rw [b6]; rfl

/-- A NoChange outcome writes exactly the old document with only
`lastCheckedDate` replaced. -/
theorem processReg_noChange (now : Int) (acc : RunResults) (r : VehicleRecord)
    (vd : VehicleData)
    (h : codeDetect ((getLatestMotTest vd).map MotTest.completedDate)
          r.lastMotTestDate = .NoChange) :
    (processReg now acc (r, .success vd)).2
      = { r with lastCheckedDate := some now } := by
  cases hg : getLatestMotTest vd with
  | none => simp [processReg, hg]
  | some t =>
    rw [hg] at h
    simp only [Option.map_some'] at h
    have hb : hasUpdateCalc (some t.completedDate) r.lastMotTestDate = false := by
      unfold hasUpdateCalc
      rw [h]
    simp [processReg, hg, hb]

/-- C7: when the outcome for a fetched vehicle is NoChange (no tests, or
no strictly newer test), the recorded result is exactly the old document
with only `lastCheckedDate` replaced — baseline, `hasUpdate`,
`updateDetails` and `updateDetectedAt` stay untouched; on a per-item
failure only `lastCheckedDate` and the `lastCheckError` note change. -/
theorem noChange_frame (now : Int) (acc : RunResults) (r : VehicleRecord)
    (vd : VehicleData)
    (h : codeDetect ((getLatestMotTest vd).map MotTest.completedDate)
          r.lastMotTestDate = .NoChange) :
    (processReg now acc (r, .success vd)).2 = { r with lastCheckedDate := some now } ∧
    ∀ msg, (processReg now acc (r, .failure msg)).2
      = { r with lastCheckedDate := some now, lastCheckError := some msg } := by
  constructor
  · exact processReg_noChange now acc r vd h
  · intro msg
    rfl

/-- Witness for `noChange_frame`: stale upstream data (test 50 against
baseline 100) leaves everything but `lastCheckedDate` unchanged. -/
theorem noChange_frame_witness :
    (processReg 2000 ⟨7, 0, 0, 0⟩ (sampleRecord, .success staleVehicleData)).2
      = { sampleRecord with lastCheckedDate := some 2000 } ∧
    (processReg 2000 ⟨7, 0, 0, 0⟩ (sampleRecord, .failure "timeout")).2
      = { sampleRecord with
            lastCheckedDate := some 2000
            lastCheckError := some "timeout" } := by
  obtain ⟨h1, h2⟩ :=
    noChange_frame 2000 ⟨7, 0, 0, 0⟩ sampleRecord staleVehicleData (by rfl)
  exact ⟨h1, h2 "timeout"⟩

/-- C3 (amended): the scheduled check never regresses the baseline — an
upstream latest date strictly earlier than the stored baseline is
classified NoChange and leaves `lastMotTestDate` unchanged.  (The direct
check endpoint does not share this property; see
`baseline_regress_counterexample`.) -/
theorem scheduled_baseline_monotonic (now : Int) (acc : RunResults)
    (r : VehicleRecord) (vd : VehicleData) (l s : Int)
    (hl : (getLatestMotTest vd).map MotTest.completedDate = some l)
    (hs : r.lastMotTestDate = some s) (hlt : l < s) :
    (processReg now acc (r, .success vd)).2.lastMotTestDate = r.lastMotTestDate ∧
    codeDetect (some l) r.lastMotTestDate = .NoChange := by
  have hnc : codeDetect (some l) r.lastMotTestDate = .NoChange := by
    rw [hs]
    unfold codeDetect
    have hng : ¬ (l > s) := by omega
    simp [hng]
  refine ⟨?_, hnc⟩
  have hfr := processReg_noChange now acc r vd (by rw [hl]; exact hnc)
  rw [hfr]

/-- Witness for `scheduled_baseline_monotonic` at upstream date 50
against baseline 100. -/
theorem scheduled_baseline_monotonic_witness :
    (processReg 2000 ⟨7, 0, 0, 0⟩ (sampleRecord, .success staleVehicleData)).2.lastMotTestDate
      = sampleRecord.lastMotTestDate ∧
    codeDetect (some 50) sampleRecord.lastMotTestDate = .NoChange := by
  exact scheduled_baseline_monotonic 2000 ⟨7, 0, 0, 0⟩ sampleRecord staleVehicleData
    50 100 rfl rfl (by decide)

/-- C3 (counterexample): `checkMotUpdates.js` overwrites the stored
baseline 100 with the strictly earlier upstream date 50 — the claim's
"every operation that checks the vehicle against upstream data" fails at
the direct check endpoint. -/
theorem baseline_regress_counterexample :
    sampleRecord.lastMotTestDate = some 100 ∧
    getLatestMotTestDate staleVehicleData = some 50 ∧
    (checkMotUpdates 2000 sampleRecord staleVehicleData).2.lastMotTestDate = some 50 ∧
    (checkMotUpdates 2000 sampleRecord staleVehicleData).2.lastMotTestDate
      ≠ sampleRecord.lastMotTestDate := by
  refine ⟨rfl, rfl, rfl, by decide⟩

/-- Once `hasUpdate` is false, every further claim attempt returns `none`
and changes nothing. -/
theorem runClaims_cleared (calls : List (Int × String)) (record : VehicleRecord)
    (h : record.hasUpdate = false) :
    runClaims calls record = (calls.map (fun _ => none), record) := by
  induction calls with
  | nil => rfl
  | cons c cs ih =>
    simp [runClaims, claimPendingUpdate, h, ih]

/-- C1: against a record with `pendingUpdate` true, any linearization of
N ≥ 1 claim attempts yields the stored document (with its update details)
for exactly the first attempt, `none` — not an error — for the other
N − 1, and flips `hasUpdate` from true to false at the first attempt. -/
theorem claim_exactly_once (calls : List (Int × String)) (record : VehicleRecord)
    (hpending : record.hasUpdate = true) (hne : calls ≠ []) :
    (runClaims calls record).1.length = calls.length ∧
    (runClaims calls record).1.countP (fun x => x.isSome) = 1 ∧
    (runClaims calls record).1.head? = some (some record) ∧
    (∀ x ∈ (runClaims calls record).1.tail, x = none) ∧
    (runClaims calls record).2.hasUpdate = false ∧
    ∀ t c, (claimPendingUpdate t c record).1 = some record ∧
      (claimPendingUpdate t c record).2.hasUpdate = false := by
  match calls with
  | [] => exact absurd rfl hne
  | c :: cs =>
    have hstep : claimPendingUpdate c.1 c.2 record
        = (some record,
            { record with
                hasUpdate := false
                updateAcknowledgedAt := some c.1
                acknowledgedBy := some c.2 }) := by
      simp [claimPendingUpdate, hpending]
    have hrest := runClaims_cleared cs
      { record with
          hasUpdate := false
          updateAcknowledgedAt := some c.1
          acknowledgedBy := some c.2 } rfl
    have hrun : runClaims (c :: cs) record
        = (some record :: cs.map (fun _ => none),
            { record with
                hasUpdate := false
                updateAcknowledgedAt := some c.1
                acknowledgedBy := some c.2 }) := by
      simp only [runClaims, hstep, hrest]
    rw [hrun]
    refine ⟨by simp, ?_, rfl, ?_, rfl, ?_⟩
    · simp [List.countP_cons, List.countP_map]
    · intro x hx
      simp only [List.tail_cons, List.mem_map] at hx
      obtain ⟨_, _, hxe⟩ := hx
      exact hxe.symm
    · intro t c'
      simp [claimPendingUpdate, hpending]

/-- Witness for `claim_exactly_once`: three claim attempts against a
pending record — one `claimed`, two `none`. -/
theorem claim_exactly_once_witness :
    (runClaims [(2001, "tab-a"), (2002, "tab-b"), (2003, "tab-c")] pendingRecord).1.countP
        (fun x => x.isSome) = 1 ∧
    (runClaims [(2001, "tab-a"), (2002, "tab-b"), (2003, "tab-c")] pendingRecord).1.head?
      = some (some pendingRecord) ∧
    (runClaims [(2001, "tab-a"), (2002, "tab-b"), (2003, "tab-c")] pendingRecord).2.hasUpdate
      = false := by
  obtain ⟨_, h2, h3, _, h5, _⟩ :=
    claim_exactly_once [(2001, "tab-a"), (2002, "tab-b"), (2003, "tab-c")]
      pendingRecord rfl (by simp)
  exact ⟨h2, h3, h5⟩

/-- C6 (counterexample): polling a subscribed vehicle whose update is
pending yields the `hasUpdate: true` 200 body, and that body does not
contain `lastMotTestDate` at all — the claim's "contains … and
lastMotTestDate … regardless" fails on the claimed branch. -/
theorem poll_missing_baseline_counterexample :
    pendingRecord.lastMotTestDate = some 100 ∧
    (getPendingNotifications 2000 none (some pendingRecord)).1.statusCode = 200 ∧
    (getPendingNotifications 2000 none (some pendingRecord)).1.hasUpdate = some true ∧
    (getPendingNotifications 2000 none (some pendingRecord)).1.lastMotTestDate = none := by
  exact ⟨rfl, rfl, rfl, rfl⟩

/-- C6 (amended): every poll of a subscribed vehicle gets a 200 body with
the record's current `lastCheckedDate`; `lastMotTestDate` is in the body
only when no update was claimed (`hasUpdate: false` branch) — the claimed
branch carries `updateDetectedAt`/`details` instead and omits
`lastMotTestDate`. -/
theorem poll_response_fields (now : Int) (clientId : Option String)
    (r : VehicleRecord) :
    (getPendingNotifications now clientId (some r)).1.statusCode = 200 ∧
    (getPendingNotifications now clientId (some r)).1.lastCheckedDate
      = some r.lastCheckedDate ∧
    (r.hasUpdate = false →
      (getPendingNotifications now clientId (some r)).1.hasUpdate = some false ∧
      (getPendingNotifications now clientId (some r)).1.lastMotTestDate
        = some r.lastMotTestDate) ∧
    (r.hasUpdate = true →
      (getPendingNotifications now clientId (some r)).1.hasUpdate = some true ∧
      (getPendingNotifications now clientId (some r)).1.details = r.updateDetails ∧
      (getPendingNotifications now clientId (some r)).1.lastMotTestDate = none) := by
  by_cases h : r.hasUpdate
  · refine ⟨?_, ?_, ?_, ?_⟩ <;>
      simp [getPendingNotifications, claimPendingUpdate, h]
  · refine ⟨?_, ?_, ?_, ?_⟩ <;>
      simp [getPendingNotifications, claimPendingUpdate, h]

/-- Witness for `poll_response_fields` on both branches: a pending and a
non-pending record. -/
theorem poll_response_fields_witness :
    (getPendingNotifications 2000 (some "tab-a") (some pendingRecord)).1.lastCheckedDate
      = some pendingRecord.lastCheckedDate ∧
    (getPendingNotifications 2000 (some "tab-a") (some pendingRecord)).1.details
      = pendingRecord.updateDetails ∧
    (getPendingNotifications 2000 (some "tab-a") (some sampleRecord)).1.lastMotTestDate
      = some sampleRecord.lastMotTestDate := by
  obtain ⟨_, hp2, _, hp4⟩ := poll_response_fields 2000 (some "tab-a") pendingRecord
  obtain ⟨_, _, hs3, _⟩ := poll_response_fields 2000 (some "tab-a") sampleRecord
  exact ⟨hp2, (hp4 rfl).2.1, (hs3 rfl).2⟩

/-- C9: subscribing an already-subscribed registration is a no-op
success: the response is the 200 `already enabled` message and the stored
record — in particular `lastMotTestDate` and `enabled` — is exactly what
it was; no baseline fetch result is consulted. -/
theorem subscribe_idempotent (now : Int) (formattedReg : String)
    (fetch : FetchResult) (r : VehicleRecord) :
    enableNotification now formattedReg fetch (some r)
      = ({ statusCode := 200, success := true,
            message := "Notifications for " ++ formattedReg ++ " are already enabled" },
          some r) := by
  rfl

/-- C4: every mutation of a tracked-vehicle record preserves
`pendingUpdate = true ⇒ pendingUpdateDetails ≠ null`: the scheduler's
update branch sets `hasUpdate` and `updateDetails` in the same single
`updateOne`, the claim protocol only clears the flag, a freshly inserted
subscription has neither, and the direct check endpoint touches
neither. -/
theorem pending_invariant_preserved (now : Int) (r : VehicleRecord)
    (hinv : r.hasUpdate = true → r.updateDetails.isSome = true) :
    (∀ acc fetch, (processReg now acc (r, fetch)).2.hasUpdate = true →
      (processReg now acc (r, fetch)).2.updateDetails.isSome = true) ∧
    (∀ t c, (claimPendingUpdate t c r).2.hasUpdate = true →
      (claimPendingUpdate t c r).2.updateDetails.isSome = true) ∧
    (∀ reg fetch rec, (enableNotification now reg fetch none).2 = some rec →
      rec.hasUpdate = true → rec.updateDetails.isSome = true) ∧
    (∀ vd, (checkMotUpdates now r vd).2.hasUpdate = true →
      (checkMotUpdates now r vd).2.updateDetails.isSome = true) := by
  refine ⟨?_, ?_, ?_, ?_⟩
  · intro acc fetch
    cases fetch with
    | failure msg => simpa [processReg] using hinv
    | success vd =>
      cases hg : getLatestMotTest vd with
      | none => simpa [processReg, hg] using hinv
      | some t =>
        by_cases hb : hasUpdateCalc (some t.completedDate) r.lastMotTestDate
        · simp [processReg, hg, hb]
        · simpa [processReg, hg, hb] using hinv
  · intro t c
    by_cases h : r.hasUpdate
    · simp [claimPendingUpdate, h]
    · simpa [claimPendingUpdate, h] using hinv
  · intro reg fetch rec hrec
    cases fetch with
    | failure msg =>
      simp only [enableNotification, Option.some.injEq] at hrec
      intro habs
      rw [← hrec] at habs
      simp at habs
    | success vd =>
      simp only [enableNotification, Option.some.injEq] at hrec
      intro habs
      rw [← hrec] at habs
      simp at habs
  · intro vd
    simpa [checkMotUpdates] using hinv

/-! ### Supporting lemmas for the dispatcher -/

/-- A map that fixes every member of a list is the identity on it. -/
theorem map_fixes {α : Type} (l : List α) (g : α → α)
    (h : ∀ a ∈ l, g a = a) : l.map g = l := by
  induction l with
  | nil => rfl
  | cons x xs ih =>
    simp only [List.map_cons, h x (by simp)]
    rw [ih (fun a ha => h a (by simp [ha]))]

/-- A delivery attempt never changes the document id. -/
theorem applyOutcome_id (now : Int) (o : PushOutcome) (s : PushSubscription) :
    (applyOutcome now o s).id = s.id := by
  cases o with
  | delivered => rfl
  | failed code =>
    by_cases hc : (code = some 410 || code = some 404 : Bool)
    · simp [applyOutcome, hc]
    · simp [applyOutcome, hc]

/-- Mapping an id-preserving transform preserves the id list. -/
theorem ids_of_map (store : List PushSubscription)
    (g : PushSubscription → PushSubscription) (h : ∀ s, (g s).id = s.id) :
    (store.map g).map PushSubscription.id = store.map PushSubscription.id := by
  induction store with
  | nil => rfl
  | cons x xs ih => simp [h, ih]

/-- With pairwise-distinct ids, updating the first id match is the same
as updating every id match. -/
theorem updateFirst_eq_map (i : Nat) (f : PushSubscription → PushSubscription)
    (store : List PushSubscription)
    (h : (store.map PushSubscription.id).Nodup) :
    updateFirst (fun s => s.id == i) f store
      = store.map (fun s => if s.id == i then f s else s) := by
  induction store with
  | nil => rfl
  | cons x xs ih =>
    simp only [List.map_cons, List.nodup_cons] at h
    obtain ⟨hx, hxs⟩ := h
    by_cases hpx : (x.id == i : Bool)
    · have hie : x.id = i := by simpa using hpx
      have hmap : xs.map (fun s => if s.id == i then f s else s) = xs := by
        apply map_fixes
        intro a ha
        have hne : a.id ≠ i := by
          intro hai
          apply hx
          rw [hie, ← hai]
          exact List.mem_map_of_mem _ ha
        simp [hne]
      simp only [updateFirst, hpx, if_true, List.map_cons, hmap]
    · simp only [updateFirst, List.map_cons]
      rw [if_neg hpx, if_neg hpx, ih hxs]

/-- Every attempt adds exactly one to `sent + failed`. -/
theorem sendLoop_counts (now : Int) (deliver : Nat → PushOutcome)
    (sel : List PushSubscription) :
    ∀ res store,
      (sendLoop now deliver sel (res, store)).1.sent
        + (sendLoop now deliver sel (res, store)).1.failed
      = res.sent + res.failed + sel.length := by
  induction sel with
  | nil => intro res store; simp [sendLoop]
  | cons sub rest ih =>
    intro res store
    cases hd : deliver sub.id with
    | delivered =>
      simp only [sendLoop, hd, ih, List.length_cons]
      omega
    | failed code =>
      by_cases hc : (code = some 410 || code = some 404 : Bool)
      · simp only [sendLoop, hd, hc, if_true, ih, List.length_cons]
        omega
      · simp only [sendLoop, hd, hc, Bool.false_eq_true, if_false, ih,
          List.length_cons]
        omega

/-- The store component of the loop does not depend on the counters. -/
theorem sendLoop_res_irrel (now : Int) (deliver : Nat → PushOutcome)
    (sel : List PushSubscription) :
    ∀ res res' store,
      (sendLoop now deliver sel (res, store)).2
        = (sendLoop now deliver sel (res', store)).2 := by
  induction sel with
  | nil => intro res res' store; rfl
  | cons sub rest ih =>
    intro res res' store
    cases hd : deliver sub.id with
    | delivered =>
      simp only [sendLoop, hd]
      exact ih _ _ _
    | failed code =>
      by_cases hc : (code = some 410 || code = some 404 : Bool)
      · simp only [sendLoop, hd, hc, if_true]
        exact ih _ _ _
      · simp only [sendLoop, hd, hc, Bool.false_eq_true, if_false]
        exact ih _ _ _

/-- Specialization of `sendLoop_res_irrel` used for rewriting. -/
theorem sendLoop_store_res_free (now : Int) (deliver : Nat → PushOutcome)
    (sel : List PushSubscription) (res : DispatchResult)
    (store : List PushSubscription) :
    (sendLoop now deliver sel (res, store)).2
      = (sendLoop now deliver sel (⟨0, 0⟩, store)).2 :=
  sendLoop_res_irrel now deliver sel res ⟨0, 0⟩ store

/-- The final subscription store is the pointwise image of the initial
one: a document targeted by some attempt receives its own outcome's
effect, every other document is untouched. -/
theorem sendLoop_store (now : Int) (deliver : Nat → PushOutcome)
    (sel : List PushSubscription) :
    ∀ res store, (store.map PushSubscription.id).Nodup →
      (sel.map PushSubscription.id).Nodup →
      (sendLoop now deliver sel (res, store)).2
        = store.map (fun s =>
            if sel.any (fun t => t.id == s.id) then
              applyOutcome now (deliver s.id) s
            else s) := by
  induction sel with
  | nil =>
    intro res store _ _
    simp only [sendLoop, List.any_nil, Bool.false_eq_true, if_false]
    exact (map_fixes store _ (fun a _ => rfl)).symm
  | cons sub rest ih =>
    intro res store hstore hsel
    simp only [List.map_cons, List.nodup_cons] at hsel
    obtain ⟨hsub, hrest⟩ := hsel
    have hany : ∀ s : PushSubscription, (s.id == sub.id : Bool) = true →
        rest.any (fun t => t.id == s.id) = false := by
      intro s hs
      have hse : s.id = sub.id := by simpa using hs
      rw [List.any_eq_false]
      intro t ht
      simp only [beq_iff_eq, hse]
      intro hts
      exact hsub (hts ▸ List.mem_map_of_mem _ ht)
    have hgid : ∀ o : PushOutcome, ∀ s : PushSubscription,
        ((fun s => if s.id == sub.id then applyOutcome now o s else s) s).id
          = s.id := by
      intro o s
      by_cases hb : (s.id == sub.id : Bool)
      · simp [hb, applyOutcome_id]
      · simp [hb]
    have hstep : ∀ o : PushOutcome, deliver sub.id = o →
        ((fun s => if rest.any (fun t => t.id == s.id) then
            applyOutcome now (deliver s.id) s else s) ∘
          (fun s => if s.id == sub.id then applyOutcome now o s else s))
        = fun s => if (sub :: rest).any (fun t => t.id == s.id) then
            applyOutcome now (deliver s.id) s else s := by
      intro o ho
      funext s
      simp only [Function.comp, List.any_cons]
      by_cases hb : (s.id == sub.id : Bool)
      · have hse : s.id = sub.id := by simpa using hb
        have hbs : (sub.id == s.id : Bool) = true := by simp [hse]
        simp only [hb, if_true, applyOutcome_id, hany s hb, hbs,
          Bool.true_or, Bool.false_eq_true, if_false, if_true]
        rw [hse, ho]
      · have hbf : (s.id == sub.id : Bool) = false := by simpa using hb
        have hbs : (sub.id == s.id : Bool) = false := by
          rw [beq_eq_false_iff_ne] at hbf ⊢
          exact fun he => hbf he.symm
        simp only [hbf, Bool.false_eq_true, if_false, hbs, Bool.false_or]
    have hrw : ∀ o : PushOutcome, deliver sub.id = o →
        (sendLoop now deliver rest
            (⟨0, 0⟩,
              updateFirst (fun s => s.id == sub.id) (applyOutcome now o) store)).2
          = store.map (fun s => if (sub :: rest).any (fun t => t.id == s.id) then
              applyOutcome now (deliver s.id) s else s) := by
      intro o ho
      rw [updateFirst_eq_map sub.id _ store hstore]
      rw [ih ⟨0, 0⟩ _ (by rw [ids_of_map store _ (hgid o)]; exact hstore) hrest]
      rw [List.map_map, hstep o ho]
    cases hd : deliver sub.id with
    | delivered =>
      have hloop : (sendLoop now deliver (sub :: rest) (res, store)).2
          = (sendLoop now deliver rest
              (⟨0, 0⟩,
                updateFirst (fun s => s.id == sub.id)
                  (applyOutcome now .delivered) store)).2 := by
        simp only [sendLoop, hd]
        rw [sendLoop_store_res_free]
      rw [hloop, hrw .delivered hd]
    | failed code =>
      by_cases hc : (code = some 410 || code = some 404 : Bool)
      · have hloop : (sendLoop now deliver (sub :: rest) (res, store)).2
            = (sendLoop now deliver rest
                (⟨0, 0⟩,
                  updateFirst (fun s => s.id == sub.id)
                    (applyOutcome now (.failed code)) store)).2 := by
          simp only [sendLoop, hd, hc, if_true]
          rw [sendLoop_store_res_free]
        rw [hloop, hrw (.failed code) hd]
      · have hloop : (sendLoop now deliver (sub :: rest) (res, store)).2
            = (sendLoop now deliver rest (⟨0, 0⟩, store)).2 := by
          simp only [sendLoop, hd, hc, Bool.false_eq_true, if_false]
          rw [sendLoop_store_res_free]
        rw [hloop, ih ⟨0, 0⟩ store hstore hrest]
        have hfun : (fun s : PushSubscription =>
              if rest.any (fun t => t.id == s.id) then
                applyOutcome now (deliver s.id) s else s)
            = fun s : PushSubscription =>
              if (sub :: rest).any (fun t => t.id == s.id) then
                applyOutcome now (deliver s.id) s else s := by
          funext s
          simp only [List.any_cons]
          by_cases hb : (s.id == sub.id : Bool)
          · have hse : s.id = sub.id := by simpa using hb
            have hbs : (sub.id == s.id : Bool) = true := by simp [hse]
            simp only [hany s hb, Bool.false_eq_true, if_false, hbs,
              Bool.true_or, if_true, hse, hd, applyOutcome, hc, ite_self]
          · have hbf : (s.id == sub.id : Bool) = false := by simpa using hb
            have hbs : (sub.id == s.id : Bool) = false := by
              rw [beq_eq_false_iff_ne] at hbf ⊢
              exact fun he => hbf he.symm
            simp only [hbs, Bool.false_or]
        rw [hfun]

/-- C8: dispatch attempts delivery to every loaded subscription —
`sent + failed` equals the number selected and no device's failure stops
the rest; a 410/404 failure deactivates that subscription in place
(never deleting it, the store keeps its length), a transient failure
leaves it untouched, and a success stamps `lastNotifiedAt`. -/
theorem dispatch_fanout (now : Int) (deliver : Nat → PushOutcome)
    (registration : String) (store : List PushSubscription)
    (hids : (store.map PushSubscription.id).Nodup) :
    (sendPushNotificationToDevices now deliver registration store).1.sent
        + (sendPushNotificationToDevices now deliver registration store).1.failed
      = (store.filter (subscriptionSelected registration)).length ∧
    (sendPushNotificationToDevices now deliver registration store).2.length
      = store.length ∧
    (∀ s ∈ store, subscriptionSelected registration s = false →
      s ∈ (sendPushNotificationToDevices now deliver registration store).2) ∧
    (∀ s ∈ store, subscriptionSelected registration s = true →
      (deliver s.id = .delivered →
        { s with lastNotifiedAt := some now }
          ∈ (sendPushNotificationToDevices now deliver registration store).2) ∧
      (∀ code, deliver s.id = .failed code →
        (code = some 410 ∨ code = some 404) →
        { s with active := some false, deactivatedAt := some now }
          ∈ (sendPushNotificationToDevices now deliver registration store).2) ∧
      (∀ code, deliver s.id = .failed code →
        ¬ (code = some 410 ∨ code = some 404) →
        s ∈ (sendPushNotificationToDevices now deliver registration store).2)) := by
  have hselids :
      ((store.filter (subscriptionSelected registration)).map
        PushSubscription.id).Nodup :=
    List.Nodup.sublist (List.Sublist.map _ (List.filter_sublist store)) hids
  have hinj := List.inj_on_of_nodup_map hids
  by_cases hzero : (store.filter (subscriptionSelected registration)).length = 0
  · have hout : sendPushNotificationToDevices now deliver registration store
        = (⟨0, 0⟩, store) := by
      simp [sendPushNotificationToDevices, hzero]
    rw [hout]
    refine ⟨by simp [hzero], rfl, ?_, ?_⟩
    · intro s hs _
      exact hs
    · intro s hs hsel
      exfalso
      have hmem : s ∈ store.filter (subscriptionSelected registration) :=
        List.mem_filter.mpr ⟨hs, hsel⟩
      rw [List.length_eq_zero] at hzero
      rw [hzero] at hmem
      exact absurd hmem (List.not_mem_nil s)
  · have hout : sendPushNotificationToDevices now deliver registration store
        = sendLoop now deliver (store.filter (subscriptionSelected registration))
            (⟨0, 0⟩, store) := by
      simp [sendPushNotificationToDevices, hzero]
    have hchar := sendLoop_store now deliver
      (store.filter (subscriptionSelected registration)) ⟨0, 0⟩ store hids hselids
    have hcnt := sendLoop_counts now deliver
      (store.filter (subscriptionSelected registration)) ⟨0, 0⟩ store
    refine ⟨?_, ?_, ?_, ?_⟩
    · rw [hout]
      simpa using hcnt
    · rw [hout, hchar]
      exact List.length_map _ _
    · intro s hs hsel
      rw [hout, hchar]
      have hanyf : (store.filter (subscriptionSelected registration)).any
          (fun t => t.id == s.id) = false := by
        rw [List.any_eq_false]
        intro t ht
        simp only [beq_iff_eq]
        intro hts
        have htmem := (List.mem_filter.mp ht).1
        have htsel := (List.mem_filter.mp ht).2
        rw [hinj htmem hs hts] at htsel
        rw [hsel] at htsel
        cases htsel
      exact List.mem_map.mpr ⟨s, hs, by simp [hanyf]⟩
    · intro s hs hsel
      have hmem : s ∈ store.filter (subscriptionSelected registration) :=
        List.mem_filter.mpr ⟨hs, hsel⟩
      have hanyt : (store.filter (subscriptionSelected registration)).any
          (fun t => t.id == s.id) = true :=
        List.any_eq_true.mpr ⟨s, hmem, by simp⟩
      refine ⟨?_, ?_, ?_⟩
      · intro hdel
        rw [hout, hchar]
        exact List.mem_map.mpr ⟨s, hs, by simp [hanyt, hdel, applyOutcome]⟩
      · intro code hdc hcode
        rw [hout, hchar]
        have hb : (code = some 410 || code = some 404 : Bool) = true := by
          rcases hcode with h | h
          · simp [h]
          · simp [h]
        exact List.mem_map.mpr ⟨s, hs, by simp [hanyt, hdc, applyOutcome, hb]⟩
      · intro code hdc hcode
        rw [hout, hchar]
        have hb : (code = some 410 || code = some 404 : Bool) = false := by
          simp only [Bool.or_eq_false_iff, decide_eq_false_iff_not]
          exact ⟨fun h => hcode (Or.inl h), fun h => hcode (Or.inr h)⟩
        exact List.mem_map.mpr ⟨s, hs, by simp [hanyt, hdc, applyOutcome, hb]⟩

/-- Witness for `dispatch_fanout`: three devices — one delivery, one 410
(deactivated in place), one transient 500 (left active). -/
theorem dispatch_fanout_witness :
    (sendPushNotificationToDevices 9 sampleDeliver "AB12CDE" sampleSubStore).1.sent
        + (sendPushNotificationToDevices 9 sampleDeliver "AB12CDE" sampleSubStore).1.failed
      = 3 ∧
    (sendPushNotificationToDevices 9 sampleDeliver "AB12CDE" sampleSubStore).2.length
      = 3 ∧
    { goodSub 1 with lastNotifiedAt := some 9 }
      ∈ (sendPushNotificationToDevices 9 sampleDeliver "AB12CDE" sampleSubStore).2 ∧
    { goodSub 2 with active := some false, deactivatedAt := some 9 }
      ∈ (sendPushNotificationToDevices 9 sampleDeliver "AB12CDE" sampleSubStore).2 ∧
    goodSub 3
      ∈ (sendPushNotificationToDevices 9 sampleDeliver "AB12CDE" sampleSubStore).2 := by
  obtain ⟨h1, h2, _, h4⟩ :=
    dispatch_fanout 9 sampleDeliver "AB12CDE" sampleSubStore (by decide)
  obtain ⟨g1a, _, _⟩ := h4 (goodSub 1) (by decide) (by decide)
  obtain ⟨_, g2b, _⟩ := h4 (goodSub 2) (by decide) (by decide)
  obtain ⟨_, _, g3c⟩ := h4 (goodSub 3) (by decide) (by decide)
  refine ⟨?_, ?_, g1a rfl, g2b (some 410) rfl (Or.inl rfl),
    g3c (some 500) rfl (by decide)⟩
  · rw [h1]
    rfl
  · rw [h2]
    rfl

/-- C10 (counterexample): a subscription whose `subscription.endpoint` is
explicitly `null` — so it has no non-empty endpoint — still matches the
loading query (the duplicated `$ne` key in the JS object literal drops
the `$ne: null` condition) and is attempted and counted, contradicting
"such malformed records are never attempted and so never counted". -/
theorem subscription_filter_counterexample :
    nullEndpointSub.endpoint = some none ∧
    subscriptionSelected "AB12CDE" nullEndpointSub = true ∧
    (sendPushNotificationToDevices 9 (fun _ => .failed none) "AB12CDE"
        [nullEndpointSub]).1.failed = 1 := by
  refine ⟨rfl, by decide, by decide⟩

/-- C10 (amended): a subscription whose endpoint or key field is absent
or the empty string is excluded from loading — and an excluded store is
neither attempted, counted nor modified; `active` absent counts as
active; `active: false` is excluded.  But a field explicitly `null`
passes the query (its `$ne: null` is shadowed by `$ne: ''` in the JS
object literal) and such a record is attempted. -/
theorem subscription_filter_amended (registration : String)
    (s : PushSubscription) :
    (s.endpoint = none ∨ s.p256dh = none ∨ s.auth = none ∨
        s.endpoint = some (some "") ∨ s.p256dh = some (some "") ∨
        s.auth = some (some "") →
      subscriptionSelected registration s = false) ∧
    (s.active = some false → subscriptionSelected registration s = false) ∧
    (s.registration = registration → s.active = none →
      fieldFilter s.endpoint = true → fieldFilter s.p256dh = true →
      fieldFilter s.auth = true → subscriptionSelected registration s = true) ∧
    ∀ now deliver (store : List PushSubscription),
      (∀ u ∈ store, subscriptionSelected registration u = false) →
      sendPushNotificationToDevices now deliver registration store
        = (⟨0, 0⟩, store) := by
  refine ⟨?_, ?_, ?_, ?_⟩
  · intro h
    rcases h with h | h | h | h | h | h
    all_goals simp [subscriptionSelected, fieldFilter, h]
  · intro h
    simp [subscriptionSelected, h]
  · intro h1 h2 h3 h4 h5
    simp [subscriptionSelected, h1, h2, h3, h4, h5]
  · intro now deliver store hall
    have hnil : store.filter (subscriptionSelected registration) = [] := by
      rw [List.filter_eq_nil]
      intro u hu
      simp [hall u hu]
    simp [sendPushNotificationToDevices, hnil]

/-- Witness for `subscription_filter_amended`: an absent-endpoint record
is excluded and an all-excluded store is returned untouched with zero
counts; `nullEndpointSub` (absent `active`, well-formed keys, null
endpoint) is selected. -/
theorem subscription_filter_amended_witness :
    subscriptionSelected "AB12CDE" { nullEndpointSub with endpoint := none }
      = false ∧
    sendPushNotificationToDevices 9 sampleDeliver "AB12CDE"
        [{ nullEndpointSub with endpoint := none }]
      = (⟨0, 0⟩, [{ nullEndpointSub with endpoint := none }]) ∧
    subscriptionSelected "AB12CDE" nullEndpointSub = true := by
  obtain ⟨ha, _, hc, hd⟩ :=
    subscription_filter_amended "AB12CDE" { nullEndpointSub with endpoint := none }
  obtain ⟨_, _, hc', _⟩ := subscription_filter_amended "AB12CDE" nullEndpointSub
  refine ⟨ha (Or.inl rfl), ?_, hc' rfl rfl (by decide) (by decide) (by decide)⟩
  exact hd 9 sampleDeliver [{ nullEndpointSub with endpoint := none }]
    (by intro u hu; simp only [List.mem_singleton] at hu; rw [hu]; exact ha (Or.inl rfl))

/-- Witness for `pending_invariant_preserved` at `sampleRecord`. -/
theorem pending_invariant_preserved_witness :
    ((claimPendingUpdate 2000 "tab-a" sampleRecord).2.hasUpdate = true →
      (claimPendingUpdate 2000 "tab-a" sampleRecord).2.updateDetails.isSome = true) ∧
    ((checkMotUpdates 2000 sampleRecord staleVehicleData).2.hasUpdate = true →
      (checkMotUpdates 2000 sampleRecord staleVehicleData).2.updateDetails.isSome
        = true) := by
  obtain ⟨_, h2, _, h4⟩ :=
    pending_invariant_preserved 2000 sampleRecord (by intro h; cases h)
  exact ⟨h2 2000 "tab-a", h4 staleVehicleData⟩

end MotCheck
